import Mathlib

/-!
# Verification of the Camola webcam-fx pipeline

Shallow embedding of the core of `webcam-fx` (capture → segment → output
pipeline with a recurrent RobustVideoMatting engine) and proofs of the
specification's claims about it.

Modelling conventions:
* `f32` arithmetic is modelled by exact rationals (`Rat`).  All the numeric
  code under scrutiny (colour-space coefficients, `/ 255` normalisation,
  `clamp` followed by `as u8` truncation) stays exact on rationals; the
  `as u8` cast of a clamped non-negative float is floor.
* External collaborators are parameters of the embedded functions:
  - the `image` crate's Lanczos3 resampler (`imageops::resize`) is an
    arbitrary function argument (`Frame → Nat → Nat → Frame` for RGB images,
    `GrayFrame → Nat → Nat → GrayFrame` for single-channel images);
  - the ONNX Runtime session (`Session::run`) is an arbitrary function from
    the five input tensors to an optional list of output values
    (`none` = the run itself errors).
* Rust `Result`-style failures are `Except` / dedicated error constructors;
  a Rust `panic` (out-of-bounds slice index, `Option::unwrap` on `None`) is
  the distinguished outcome `SegOut.panic`, kept separate from returned
  errors.
-/

/-- `q.clamp(0.0, 255.0) as u8`: clamp to `[0, 255]` and truncate towards
zero (floor, as the clamped value is non-negative). -/
def f32AsU8 (q : Rat) : Nat := (Int.floor (max (0 : Rat) (min q 255))).toNat

/-- An RGB frame: a `width × height` grid of 8-bit `(r, g, b)` samples
(`image::RgbImage`).  Pixels are a function of the coordinates; byte-range
constraints (`≤ 255`) are stated as hypotheses where a claim needs them. -/
structure Frame where
  width : Nat
  height : Nat
  pix : Nat → Nat → Nat × Nat × Nat

/-- A single-channel (grayscale) image, `image::GrayImage`. -/
structure GrayFrame where
  width : Nat
  height : Nat
  pix : Nat → Nat → Nat

/-- `rgb_to_yuv` from `output/loopback.rs` (lines 80-90): BT.601-style
conversion with clamp to `[0, 255]` and truncation on each component. -/
def rgb_to_yuv (r g b : Nat) : Nat × Nat × Nat :=
  let rf : Rat := r
  let gf : Rat := g
  let bf : Rat := b
  let y := f32AsU8 (0.299 * rf + 0.587 * gf + 0.114 * bf)
  let u := f32AsU8 ((-0.147) * rf - 0.289 * gf + 0.436 * bf + 128)
  let v := f32AsU8 (0.615 * rf - 0.515 * gf - 0.100 * bf + 128)
  (y, u, v)

/-- `V4L2Output::rgb_to_yuyv` from `output/loopback.rs` (lines 46-76):
rows are scanned top to bottom, pixels in horizontal pairs (`step_by(2)`);
at odd width the trailing pixel is paired with itself; the two chroma pairs
are averaged with `u16` integer arithmetic and one `[Y0, U, Y1, V]` quad is
pushed per pair. -/
def rgb_to_yuyv (img : Frame) : List Nat :=
  (List.range img.height).flatMap fun y =>
    (List.range ((img.width + 1) / 2)).flatMap fun i =>
      let x := 2 * i
      let p1 := img.pix x y
      let p2 := if x + 1 < img.width then img.pix (x + 1) y else p1
      let yuv1 := rgb_to_yuv p1.1 p1.2.1 p1.2.2
      let yuv2 := rgb_to_yuv p2.1 p2.2.1 p2.2.2
      let u := (yuv1.2.1 + yuv2.2.1) / 2
      let v := (yuv1.2.2 + yuv2.2.2) / 2
      [yuv1.1, u, yuv2.1, v]

/-- Modelled from the spec: the RGB→packed-BGRA conversion of §4.1 of the
Colorspace Codec ("for every pixel, emit bytes [B, G, R, 255] (alpha forced
fully opaque); output length = width×height×4").  No such conversion is
present under `src/`; this definition follows the spec's words.  The bytes
emitted for one `(r, g, b)` pixel. -/
def bgra_pixel (p : Nat × Nat × Nat) : List Nat := [p.2.2, p.2.1, p.1, 255]

/-- Modelled from the spec: RGB→packed-BGRA over a whole frame, row-major,
one `[B, G, R, 255]` quad per pixel. -/
def rgb_to_bgra (img : Frame) : List Nat :=
  (List.range img.height).flatMap fun y =>
    (List.range img.width).flatMap fun x =>
      bgra_pixel (img.pix x y)

/-- A 4-dimensional `f32` tensor (`ndarray::Array4<f32>`): its shape
`(batch, channel, row, column)` and its row-major flat data. -/
structure Tensor4 where
  shape : Nat × Nat × Nat × Nat
  data : List Rat
deriving DecidableEq

/-- `Array4::zeros`: all-zero tensor of a given shape. -/
def Tensor4.zeros (s : Nat × Nat × Nat × Nat) : Tensor4 :=
  ⟨s, List.replicate (s.1 * s.2.1 * s.2.2.1 * s.2.2.2) 0⟩

/-- Channel selector for an `(r, g, b)` pixel: channel 0 = red,
1 = green, 2 = blue (the NCHW channel order written by `preprocess`). -/
def chan (c : Nat) (p : Nat × Nat × Nat) : Nat :=
  if c = 0 then p.1 else if c = 1 then p.2.1 else p.2.2

/-- `Preprocessor::preprocess` from `segmentation/preprocess.rs`
(lines 27-63): resize (external Lanczos3 resampler `resize`) only when the
frame's dimensions differ from the target, then normalise each byte by 255
and write the values in NCHW (channel-first) layout.  The source fills an
all-zero `Array4` with `tensor[[0, c, y, x]] = channel / 255` over all
`y, x`; its row-major flat data is exactly this channels-then-rows-then-
columns list.  The source's `Result` return never carries an error, so the
embedding is total. -/
def preprocess (resize : Frame → Nat → Nat → Frame) (tw th : Nat)
    (f : Frame) : Tensor4 :=
  let resized := if (f.width, f.height) = (tw, th) then f else resize f tw th
  let w := resized.width
  let h := resized.height
  { shape := (1, 3, h, w)
    data :=
      (List.range 3).flatMap fun c =>
        (List.range h).flatMap fun y =>
          (List.range w).map fun x =>
            (chan c (resized.pix x y) : Rat) / 255 }

/-- `Preprocessor::postprocess_matte` from `segmentation/preprocess.rs`
(lines 75-111): identity when the matte dimensions already equal the target
dimensions; otherwise quantise to 8-bit grayscale (`× 255`, clamp, `as u8`),
resize with the external resampler `resizeG`, and convert back to `[0, 1]`
rationals by `/ 255` over the resized image's row-major pixels (the
resampler's output has exactly the target dimensions).  Out-of-range matte
indexing (impossible at the call sites, a panic in Rust) is modelled by
`getD _ 0`.  Both exits of the source return `Ok`. -/
def postprocess_matte (resizeG : GrayFrame → Nat → Nat → GrayFrame)
    (matte : List Rat) (matte_width matte_height target_width target_height : Nat) :
    Except String (List Rat) :=
  if matte_width = target_width ∧ matte_height = target_height then
    Except.ok matte
  else
    let gray : GrayFrame :=
      { width := matte_width
        height := matte_height
        pix := fun x y => f32AsU8 (matte.getD (y * matte_width + x) 0 * 255) }
    let resized := resizeG gray target_width target_height
    Except.ok ((List.range target_height).flatMap fun y =>
      (List.range target_width).map fun x => (resized.pix x y : Rat) / 255)

/-- The recurrent hidden state of `RobustVideoMatting` (`rvm.rs` lines
22-25): four individually optional `Array4<f32>` tensors. -/
structure RVMState where
  r1 : Option Tensor4
  r2 : Option Tensor4
  r3 : Option Tensor4
  r4 : Option Tensor4
deriving DecidableEq

/-- `RobustVideoMatting::new` fixes the model input size at 512×512
(`rvm.rs` lines 56-57). -/
def rvmWidth : Nat := 512

/-- See `rvmWidth`. -/
def rvmHeight : Nat := 512

/-- `(n as f32 * 0.25) as usize` for the hidden-state base size (`rvm.rs`
lines 76-77).  For the fixed `n = 512` the product is exact in `f32`
(`512 * 0.25 = 128`), so the cast is exactly `n / 4`. -/
def dsDim (n : Nat) : Nat := n / 4

/-- `RobustVideoMatting::init_hidden_states` (`rvm.rs` lines 75-85): the
four hidden states as all-zero tensors with channel counts 16/20/24/28 and
spatial sizes halved per tensor from the downsampled base. -/
def init_hidden_states : RVMState :=
  let h := dsDim rvmHeight
  let w := dsDim rvmWidth
  { r1 := some (Tensor4.zeros (1, 16, h, w))
    r2 := some (Tensor4.zeros (1, 20, h / 2, w / 2))
    r3 := some (Tensor4.zeros (1, 24, h / 4, w / 4))
    r4 := some (Tensor4.zeros (1, 28, h / 8, w / 8)) }

/-- `RobustVideoMatting::reset_state` (`rvm.rs` lines 213-219): drop all
four hidden states back to `None`.  Total: it has no failure mode. -/
def reset_state (_s : RVMState) : RVMState :=
  { r1 := none, r2 := none, r3 := none, r4 := none }

/-- The guard at the top of `segment` (`rvm.rs` lines 93-95):
`if self.r1.is_none() { self.init_hidden_states(); }`. -/
def ensure_init (s : RVMState) : RVMState :=
  if s.r1 = none then init_hidden_states else s

/-- One output entry of the inference session: an `ort::Value` from which
`try_extract_tensor::<f32>` either succeeds (an `f32` tensor of arbitrary
rank, shape plus flat data) or fails (any other element type). -/
inductive OrtValue where
  | f32 (shape : List Nat) (data : List Rat)
  | other
deriving DecidableEq

/-- The external ONNX Runtime session: `Session::run` on the five input
tensors (src frame, r1..r4) either errors (`none`) or returns the list of
output values. -/
def InferEngine : Type :=
  Tensor4 → Tensor4 → Tensor4 → Tensor4 → Tensor4 → Option (List OrtValue)

/-- Result of extracting the alpha matte from `outputs[1]` (`rvm.rs` lines
162-165): indexing `outputs` out of range panics; `try_extract_tensor` may
fail (an error, propagated by `?`); on success the code reads
`pha_shape[2]` and `pha_shape[3]` (a panic when the rank is below 4) and
takes the flat data. -/
inductive PhaExtract where
  | panic
  | err (msg : String)
  | ok (height width : Nat) (data : List Rat)

/-- See `PhaExtract`. -/
def extractPha (outputs : List OrtValue) : PhaExtract :=
  if h : 1 < outputs.length then
    match outputs.get ⟨1, h⟩ with
    | OrtValue.other => PhaExtract.err "try_extract_tensor"
    | OrtValue.f32 sh d =>
      if 3 < sh.length then PhaExtract.ok (sh.getD 2 0) (sh.getD 3 0) d
      else PhaExtract.panic
  else PhaExtract.panic

/-- Result of extracting one updated hidden state from `outputs[i]`
(`rvm.rs` lines 168-198): out-of-range indexing of `outputs` or of the
shape (`r_shape[0] .. r_shape[3]`, rank below 4) panics;
`try_extract_tensor` may fail; `Array4::from_shape_vec` fails when the
shape product disagrees with the data length. -/
inductive RExtract where
  | panic
  | err (msg : String)
  | ok (t : Tensor4)

/-- See `RExtract`. -/
def extractHidden (outputs : List OrtValue) (i : Nat) : RExtract :=
  if h : i < outputs.length then
    match outputs.get ⟨i, h⟩ with
    | OrtValue.other => RExtract.err "try_extract_tensor"
    | OrtValue.f32 sh d =>
      if 3 < sh.length then
        let s0 := sh.getD 0 0
        let s1 := sh.getD 1 0
        let s2 := sh.getD 2 0
        let s3 := sh.getD 3 0
        if s0 * s1 * s2 * s3 = d.length then RExtract.ok ⟨(s0, s1, s2, s3), d⟩
        else RExtract.err "from_shape_vec"
      else RExtract.panic
  else RExtract.panic

/-- Outcome of one `segment` call: the matte (`Ok`), a returned error
(`Err`, with the `anyhow` context or cause as a tag), or a Rust panic. -/
inductive SegOut where
  | ok (matte : List Rat)
  | err (msg : String)
  | panic
deriving DecidableEq

/-- The body of `segment` after the init-guard and the `unwrap`s of the
four hidden states (`rvm.rs` lines 98-210), with the state threaded
explicitly: run the session; extract the matte from `outputs[1]`; extract
and store each updated hidden state from `outputs[2] .. outputs[5]` in
order, each assignment taking effect before the next extraction is
attempted; finally resize the matte back to the frame's dimensions. -/
def segmentCore (run : InferEngine)
    (resizeG : GrayFrame → Nat → Nat → GrayFrame)
    (input_tensor r1 r2 r3 r4 : Tensor4) (frameW frameH : Nat)
    (s1 : RVMState) : SegOut × RVMState :=
  match run input_tensor r1 r2 r3 r4 with
  | none => (SegOut.err "Failed to run inference", s1)
  | some outputs =>
    match extractPha outputs with
    | PhaExtract.panic => (SegOut.panic, s1)
    | PhaExtract.err m => (SegOut.err m, s1)
    | PhaExtract.ok matte_height matte_width matte_flat =>
      match extractHidden outputs 2 with
      | RExtract.panic => (SegOut.panic, s1)
      | RExtract.err m => (SegOut.err m, s1)
      | RExtract.ok t1 =>
        let s2 := { s1 with r1 := some t1 }
        match extractHidden outputs 3 with
        | RExtract.panic => (SegOut.panic, s2)
        | RExtract.err m => (SegOut.err m, s2)
        | RExtract.ok t2 =>
          let s3 := { s2 with r2 := some t2 }
          match extractHidden outputs 4 with
          | RExtract.panic => (SegOut.panic, s3)
          | RExtract.err m => (SegOut.err m, s3)
          | RExtract.ok t3 =>
            let s4 := { s3 with r3 := some t3 }
            match extractHidden outputs 5 with
            | RExtract.panic => (SegOut.panic, s4)
            | RExtract.err m => (SegOut.err m, s4)
            | RExtract.ok t4 =>
              let s5 := { s4 with r4 := some t4 }
              match postprocess_matte resizeG matte_flat matte_width
                  matte_height frameW frameH with
              | Except.ok m => (SegOut.ok m, s5)
              | Except.error e => (SegOut.err e, s5)

/-- `RobustVideoMatting::segment` (`rvm.rs` lines 89-211): run the
init-guard, preprocess the frame, `unwrap` the four hidden states (a panic
when any is `None`), then `segmentCore`.  `Value::from_array` on data
gathered from a consistent `Array4` cannot fail and is not modelled. -/
def RobustVideoMatting.segment (resize : Frame → Nat → Nat → Frame)
    (resizeG : GrayFrame → Nat → Nat → GrayFrame)
    (run : InferEngine) (s : RVMState) (frame : Frame) : SegOut × RVMState :=
  let s1 := ensure_init s
  let input_tensor := preprocess resize rvmWidth rvmHeight frame
  match s1.r1, s1.r2, s1.r3, s1.r4 with
  | some r1, some r2, some r3, some r4 =>
    segmentCore run resizeG input_tensor r1 r2 r3 r4 frame.width frame.height s1
  | _, _, _, _ => (SegOut.panic, s1)

/-- The running statistics of `run_pipeline` (`main.rs` lines 119-122):
per-stage accumulated times (abstract ticks) and the frame counter. -/
structure PipeStats where
  frame_count : Nat
  total_capture_time : Nat
  total_segment_time : Nat
  total_output_time : Nat
deriving DecidableEq

/-- One completed loop iteration's statistics update (`main.rs` lines
142, 151, 173, 175-205): add this iteration's three stage times, increment
the frame counter once, and report (`true`) exactly when the incremented
counter satisfies `frame_count % 30 == 0`. -/
def statsStep (st : PipeStats) (capture_time segment_time output_time : Nat) :
    PipeStats × Bool :=
  let st1 : PipeStats :=
    { frame_count := st.frame_count + 1
      total_capture_time := st.total_capture_time + capture_time
      total_segment_time := st.total_segment_time + segment_time
      total_output_time := st.total_output_time + output_time }
  (st1, st1.frame_count % 30 == 0)

/-- The statistics part of the pipeline loop over a finite trace of
per-iteration stage times: the final statistics and the list of
frame-counter values at which a report was emitted, in order. -/
def runStats : PipeStats → List (Nat × Nat × Nat) → PipeStats × List Nat
  | st, [] => (st, [])
  | st, t :: ts =>
    let step := statsStep st t.1 t.2.1 t.2.2
    let rest := runStats step.1 ts
    (rest.1, (if step.2 then [step.1.frame_count] else []) ++ rest.2)

/-- The engine states reachable through the public lifecycle: construction
(`RobustVideoMatting::new`, all four states `None`, `rvm.rs` lines 66-69),
then any sequence of `reset_state` and `segment` calls (including failing
and panicking `segment` calls), with arbitrary external resamplers,
inference sessions and frames. -/
inductive Reachable : RVMState → Prop where
  | new : Reachable { r1 := none, r2 := none, r3 := none, r4 := none }
  | reset (s : RVMState) : Reachable s → Reachable (reset_state s)
  | seg (s : RVMState) (resize : Frame → Nat → Nat → Frame)
      (resizeG : GrayFrame → Nat → Nat → GrayFrame)
      (run : InferEngine) (frame : Frame) :
      Reachable s → Reachable (RobustVideoMatting.segment resize resizeG run s frame).2

/-- The "all four or none" shape of the hidden state. -/
def allOrNone (s : RVMState) : Prop :=
  (s.r1 = none ∧ s.r2 = none ∧ s.r3 = none ∧ s.r4 = none) ∨
  (s.r1 ≠ none ∧ s.r2 ≠ none ∧ s.r3 ≠ none ∧ s.r4 ≠ none)

instance (s : RVMState) : Decidable (allOrNone s) := by
  unfold allOrNone; infer_instance

/-! ## Helper lemmas about fixed-size chunks in flatMap lists -/

theorem length_flatMap_const {α β : Type} (l : List α) (f : α → List β) (k : Nat)
    (h : ∀ a ∈ l, (f a).length = k) : (l.flatMap f).length = l.length * k := by
  induction l with
  | nil => simp
  | cons a t ih =>
    rw [List.flatMap_cons, List.length_append, h a (List.mem_cons_self a t),
        ih (fun b hb => h b (List.mem_cons_of_mem a hb)), List.length_cons]
    ring

theorem flatMap_drop_chunk {α β : Type} (f : α → List β) (k : Nat) :
    ∀ (l : List α) (j : Nat) (hj : j < l.length), (∀ a ∈ l, (f a).length = k) →
      (l.flatMap f).drop (j * k) =
        f (l.get ⟨j, hj⟩) ++ (l.drop (j + 1)).flatMap f := by
  intro l
  induction l with
  | nil => intro j hj _; exact absurd hj (by simp)
  | cons a t ih =>
    intro j hj hall
    cases j with
    | zero => simp [List.flatMap_cons]
    | succ j =>
      have hk : (f a).length = k := hall a (List.mem_cons_self a t)
      have h1 : (j + 1) * k = k + j * k := by ring
      rw [List.flatMap_cons, h1, ← List.drop_drop (j * k) k, List.drop_left' hk]
      exact ih j (Nat.lt_of_succ_lt_succ hj)
        (fun b hb => hall b (List.mem_cons_of_mem a hb))

theorem flatMap_chunk_eq {α β : Type} (f : α → List β) (k : Nat) (l : List α)
    (j : Nat) (hj : j < l.length) (hall : ∀ a ∈ l, (f a).length = k) :
    ((l.flatMap f).drop (j * k)).take k = f (l.get ⟨j, hj⟩) := by
  rw [flatMap_drop_chunk f k l j hj hall]
  exact List.take_left' (hall _ (l.get_mem j hj))

theorem flatMap_const {α β : Type} (l : List α) (b : List β) :
    (l.flatMap fun _ => b) = (List.replicate l.length b).flatten := by
  induction l with
  | nil => rfl
  | cons a t ih => simp only [List.flatMap_cons, List.replicate_succ,
      List.flatten_cons, ih, List.length_cons]

theorem flatten_replicate_flatten {β : Type} (n m : Nat) (c : List β) :
    (List.replicate n ((List.replicate m c).flatten)).flatten =
      (List.replicate (n * m) c).flatten := by
  induction n with
  | zero => simp
  | succ n ih =>
    rw [List.replicate_succ, List.flatten_cons, ih, Nat.succ_mul, Nat.add_comm,
        List.replicate_add, List.flatten_append]

/-! ## Concrete fixtures used by counterexamples and witnesses -/

/-- A stand-in for the external resampler in concrete evaluations. -/
def idResize : Frame → Nat → Nat → Frame := fun f _ _ => f

/-- A stand-in for the external grayscale resampler in concrete
evaluations. -/
def idResizeG : GrayFrame → Nat → Nat → GrayFrame := fun g _ _ => g

/-- A concrete 1×1 black frame. -/
def cexFrame : Frame := ⟨1, 1, fun _ _ => (0, 0, 0)⟩

/-- A concrete 1×1×1×1 tensor holding one value. -/
def t4 (q : Rat) : Tensor4 := ⟨(1, 1, 1, 1), [q]⟩

/-- A concrete engine state with all four hidden states present. -/
def cexState : RVMState := ⟨some (t4 1), some (t4 2), some (t4 3), some (t4 4)⟩

/-- A session whose run succeeds with a well-formed matte (`outputs[1]`)
and first updated hidden state (`outputs[2]`), but whose `outputs[3]` is
not an `f32` tensor, so extraction of the second updated hidden state
fails after `self.r1` has already been overwritten. -/
def midFailEngine : InferEngine := fun _ _ _ _ _ =>
  some [OrtValue.other, OrtValue.f32 [1, 1, 1, 1] [1/2],
        OrtValue.f32 [1, 1, 1, 1] [9],
        OrtValue.other, OrtValue.other, OrtValue.other]

/-- A session returning six outputs whose matte entry (`outputs[1]`) is a
rank-2 tensor. -/
def lowRankEngine : InferEngine := fun _ _ _ _ _ =>
  some [OrtValue.other, OrtValue.f32 [1, 1] [0, 0], OrtValue.other,
        OrtValue.other, OrtValue.other, OrtValue.other]

/-- A session whose run itself errors. -/
def errEngine : InferEngine := fun _ _ _ _ _ => none

/-- A session returning only five (well-formed) outputs: the updated
fourth hidden state is missing. -/
def fiveOutputEngine : InferEngine := fun _ _ _ _ _ =>
  some [OrtValue.f32 [1, 1, 1, 1] [0], OrtValue.f32 [1, 1, 1, 1] [0],
        OrtValue.f32 [1, 1, 1, 1] [0], OrtValue.f32 [1, 1, 1, 1] [0],
        OrtValue.f32 [1, 1, 1, 1] [0]]

/-! ## Claims -/

/-- Claim C1: the claim states that a failing `segment` call leaves all four
stored hidden-state tensors exactly as they were before the call.  The code
violates this: the assignments of the four updated hidden states are
sequential, each guarded by its own fallible extraction, so a failure
extracting the second updated hidden state (`outputs[3]`) returns an error
after `self.r1` has already been overwritten.  Here, with all-present prior
state `cexState` and session `midFailEngine`, the call fails with the
`try_extract_tensor` error yet the stored `r1` has changed to the session's
returned tensor while `r2`, `r3`, `r4` keep their old values: partial
mutation is observable. -/
theorem segment_failure_partially_mutates_state :
    (RobustVideoMatting.segment idResize idResizeG midFailEngine cexState cexFrame).1
      = SegOut.err "try_extract_tensor" ∧
    (RobustVideoMatting.segment idResize idResizeG midFailEngine cexState cexFrame).2
      = { cexState with r1 := some ⟨(1, 1, 1, 1), [9]⟩ } ∧
    (RobustVideoMatting.segment idResize idResizeG midFailEngine cexState cexFrame).2.r1
      ≠ cexState.r1 ∧
    (RobustVideoMatting.segment idResize idResizeG midFailEngine cexState cexFrame).2.r2
      = cexState.r2 := by
  decide

/-- Claim C2: after `reset_state`, the next `segment` call first
materializes the four hidden states as all-zero tensors of shapes
(1,16,128,128), (1,20,64,64), (1,24,32,32), (1,28,16,16) — base spatial
size floor(512·0.25) = 128, halved per tensor, channels 16/20/24/28 —
regardless of the prior state; `reset_state` is total (it never fails) and
idempotent, and a `segment` call on a just-reset engine behaves exactly as
one whose state is the freshly materialized zero state. -/
theorem reset_then_segment_reinitializes_zero_state (s : RVMState) :
    ensure_init (reset_state s) = init_hidden_states ∧
    init_hidden_states.r1 = some (Tensor4.zeros (1, 16, 128, 128)) ∧
    init_hidden_states.r2 = some (Tensor4.zeros (1, 20, 64, 64)) ∧
    init_hidden_states.r3 = some (Tensor4.zeros (1, 24, 32, 32)) ∧
    init_hidden_states.r4 = some (Tensor4.zeros (1, 28, 16, 16)) ∧
    reset_state (reset_state s) = reset_state s ∧
    (∀ (resize : Frame → Nat → Nat → Frame)
        (resizeG : GrayFrame → Nat → Nat → GrayFrame)
        (run : InferEngine) (frame : Frame),
      RobustVideoMatting.segment resize resizeG run (reset_state s) frame =
        RobustVideoMatting.segment resize resizeG run init_hidden_states frame) :=
  ⟨rfl, rfl, rfl, rfl, rfl, rfl, fun _ _ _ _ => rfl⟩

/-- Claim C4: when the matte dimensions equal the target dimensions,
`postprocess_matte` succeeds and is the identity on the flat matte. -/
theorem postprocess_matte_eq_dims_identity
    (resizeG : GrayFrame → Nat → Nat → GrayFrame)
    (m : List Rat) (w h : Nat) (_hl : m.length = w * h) :
    postprocess_matte resizeG m w h w h = Except.ok m := by
  unfold postprocess_matte
  simp

/-- Witness for C4 at a concrete matte. -/
theorem postprocess_matte_eq_dims_identity_witness :
    postprocess_matte idResizeG [(1 : Rat)] 1 1 1 1 = Except.ok [(1 : Rat)] :=
  postprocess_matte_eq_dims_identity idResizeG [(1 : Rat)] 1 1 (by decide)

/-- Reports emitted by the statistics loop from an arbitrary starting
state: the final frame counter and the ordered list of counter values at
which a report fired. -/
theorem runStats_characterization (l : List (Nat × Nat × Nat)) : ∀ st : PipeStats,
    (runStats st l).1.frame_count = st.frame_count + l.length ∧
    (runStats st l).2 =
      ((List.range l.length).map (fun i => st.frame_count + i + 1)).filter
        (fun m => m % 30 == 0) := by
  induction l with
  | nil => intro st; simp [runStats]
  | cons t ts ih =>
    intro st
    obtain ⟨ih1, ih2⟩ := ih ((statsStep st t.1 t.2.1 t.2.2).1)
    unfold runStats
    dsimp only
    constructor
    · rw [ih1]; simp [statsStep]; omega
    · rw [ih2, List.length_cons, List.range_succ_eq_map, List.map_cons,
        List.map_map, List.filter_cons]
      have harg : ∀ i : Nat,
          ((fun i => st.frame_count + i + 1) ∘ Nat.succ) i =
            (fun i => (statsStep st t.1 t.2.1 t.2.2).1.frame_count + i + 1) i := by
        intro i; simp [statsStep]; omega
      rw [List.map_congr_left (fun i _ => harg i)]
      by_cases h30 : (st.frame_count + 1) % 30 = 0
      · have hstep : (statsStep st t.1 t.2.1 t.2.2).2 = true := by
          simp [statsStep, h30]
        rw [hstep]
        simp [statsStep, h30]
      · have hstep : (statsStep st t.1 t.2.1 t.2.2).2 = false := by
          simp [statsStep, h30]
        rw [hstep]
        simp [statsStep, h30]

/-- Claim C9: the per-iteration statistics update adds the three stage
times and increments the frame counter exactly once, and a report is
emitted after an iteration iff the counter at the end of that iteration is
a positive multiple of 30; over a whole run starting from zeroed
statistics, the reports fire exactly at counter values 30, 60, 90, …. -/
theorem stats_report_every_30_frames :
    (∀ (st : PipeStats) (c sg o : Nat),
      (statsStep st c sg o).1.frame_count = st.frame_count + 1 ∧
      (statsStep st c sg o).1.total_capture_time = st.total_capture_time + c ∧
      (statsStep st c sg o).1.total_segment_time = st.total_segment_time + sg ∧
      (statsStep st c sg o).1.total_output_time = st.total_output_time + o ∧
      ((statsStep st c sg o).2 = true ↔
        ∃ k, 0 < k ∧ (statsStep st c sg o).1.frame_count = 30 * k)) ∧
    (∀ l : List (Nat × Nat × Nat),
      (runStats ⟨0, 0, 0, 0⟩ l).1.frame_count = l.length ∧
      (runStats ⟨0, 0, 0, 0⟩ l).2 =
        ((List.range l.length).map (fun i => i + 1)).filter
          (fun m => m % 30 == 0)) := by
  constructor
  · intro st c sg o
    refine ⟨rfl, rfl, rfl, rfl, ?_⟩
    simp only [statsStep, beq_iff_eq]
    constructor
    · intro h
      exact ⟨(st.frame_count + 1) / 30, by omega, by omega⟩
    · rintro ⟨k, hk, he⟩
      omega
  · intro l
    obtain ⟨h1, h2⟩ := runStats_characterization l ⟨0, 0, 0, 0⟩
    exact ⟨by simpa using h1, by simpa using h2⟩

/-- After the init-guard the four hidden states of a well-shaped state are
all present. -/
theorem ensure_init_all_present (s : RVMState) (h : allOrNone s) :
    (ensure_init s).r1 ≠ none ∧ (ensure_init s).r2 ≠ none ∧
    (ensure_init s).r3 ≠ none ∧ (ensure_init s).r4 ≠ none := by
  unfold ensure_init
  by_cases h1 : s.r1 = none
  · simp [h1, init_hidden_states]
  · rcases h with ⟨ha, _, _, _⟩ | ⟨_, hb, hc, hd⟩
    · exact absurd ha h1
    · simp [h1, hb, hc, hd]
    
/-- Every state `segmentCore` can return keeps all four hidden states
present when they all were present on entry. -/
theorem segmentCore_all_or_none (run : InferEngine)
    (resizeG : GrayFrame → Nat → Nat → GrayFrame)
    (input r1 r2 r3 r4 : Tensor4) (fw fh : Nat) (s1 : RVMState)
    (h : s1.r1 ≠ none ∧ s1.r2 ≠ none ∧ s1.r3 ≠ none ∧ s1.r4 ≠ none) :
    allOrNone (segmentCore run resizeG input r1 r2 r3 r4 fw fh s1).2 := by
  obtain ⟨h1, h2, h3, h4⟩ := h
  unfold segmentCore
  repeat' split
  all_goals exact Or.inr (by simp_all)

/-- A `segment` call, whatever its outcome, keeps the hidden state
all-present-or-all-absent. -/
theorem segment_all_or_none (resize : Frame → Nat → Nat → Frame)
    (resizeG : GrayFrame → Nat → Nat → GrayFrame) (run : InferEngine)
    (s : RVMState) (frame : Frame) (h : allOrNone s) :
    allOrNone (RobustVideoMatting.segment resize resizeG run s frame).2 := by
  obtain ⟨e1, e2, e3, e4⟩ := ensure_init_all_present s h
  unfold RobustVideoMatting.segment
  dsimp only
  split
  · exact segmentCore_all_or_none _ _ _ _ _ _ _ _ _ _ ⟨e1, e2, e3, e4⟩
  · exact Or.inr ⟨e1, e2, e3, e4⟩

/-- Claim C10: in every reachable engine state (after construction and any
sequence of `segment` and `reset_state` calls, including failing ones), the
four optional hidden-state fields are either all absent or all present. -/
theorem rvm_hidden_state_all_or_none (s : RVMState) (h : Reachable s) :
    allOrNone s := by
  induction h with
  | new => exact Or.inl ⟨rfl, rfl, rfl, rfl⟩
  | reset s _ _ => exact Or.inl ⟨rfl, rfl, rfl, rfl⟩
  | seg s resize resizeG run frame _ ih =>
    exact segment_all_or_none resize resizeG run s frame ih

/-- Witness for C10 at the freshly constructed engine state. -/
theorem rvm_hidden_state_all_or_none_witness :
    allOrNone { r1 := none, r2 := none, r3 := none, r4 := none } :=
  rvm_hidden_state_all_or_none _ Reachable.new

/-- Dropping whole fixed-size chunks inside a two-level flatMap over
ranges isolates one chunk. -/
theorem double_flatMap_layout {β : Type} (h w k : Nat) (g : Nat → Nat → List β)
    (hk : ∀ y i, (g y i).length = k) (y i : Nat) (hy : y < h) (hi : i < w) :
    ((((List.range h).flatMap fun a => (List.range w).flatMap fun b => g a b).drop
        ((y * w + i) * k)).take k) = g y i := by
  have hrowlen : ∀ a, ((List.range w).flatMap fun b => g a b).length = w * k := by
    intro a
    have := length_flatMap_const (List.range w) (fun b => g a b) k (fun b _ => hk a b)
    simpa using this
  have harith : (y * w + i) * k = y * (w * k) + i * k := by ring
  rw [harith, ← List.drop_drop (i * k) (y * (w * k))]
  have hdrop := flatMap_drop_chunk (fun a => (List.range w).flatMap fun b => g a b)
      (w * k) (List.range h) y (by simpa using hy) (fun a _ => hrowlen a)
  rw [List.get_eq_getElem, List.getElem_range] at hdrop
  rw [hdrop, List.drop_append_eq_append_drop]
  have hinner := flatMap_drop_chunk (fun b => g y b) k (List.range w) i
      (by simpa using hi) (fun b _ => hk y b)
  rw [List.get_eq_getElem, List.getElem_range] at hinner
  rw [hinner]
  have hsub : i * k - ((List.range w).flatMap fun b => g y b).length = 0 := by
    rw [hrowlen y]
    have : (i + 1) * k ≤ w * k := Nat.mul_le_mul_right k hi
    have : i * k ≤ w * k := by
      calc i * k ≤ (i + 1) * k := Nat.mul_le_mul_right k (Nat.le_succ i)
        _ ≤ w * k := this
    omega
  rw [hsub, List.drop_zero, List.append_assoc]
  exact List.take_left' (hk y i)

/-- Length of a two-level flatMap of fixed-size chunks over ranges. -/
theorem double_flatMap_length {β : Type} (h w k : Nat) (g : Nat → Nat → List β)
    (hk : ∀ y i, (g y i).length = k) :
    ((List.range h).flatMap fun a => (List.range w).flatMap fun b => g a b).length
      = h * w * k := by
  have hrowlen : ∀ a ∈ List.range h,
      ((List.range w).flatMap fun b => g a b).length = w * k := by
    intro a _
    have := length_flatMap_const (List.range w) (fun b => g a b) k (fun b _ => hk a b)
    simpa using this
  rw [length_flatMap_const _ _ _ hrowlen]
  simp [Nat.mul_assoc]

/-- Reading one element of a flatMap of fixed-size chunks over a range. -/
theorem range_flatMap_getD {β : Type} (F : Nat → List β) (k n j r : Nat) (d : β)
    (hall : ∀ a, (F a).length = k) (hj : j < n) (hr : r < k) :
    ((List.range n).flatMap F).getD (j * k + r) d = (F j).getD r d := by
  have hdrop := flatMap_drop_chunk F k (List.range n) j (by simpa using hj)
      (fun a _ => hall a)
  rw [List.get_eq_getElem, List.getElem_range] at hdrop
  rw [List.getD_eq_getElem?_getD, List.getD_eq_getElem?_getD,
      ← List.getElem?_drop, hdrop,
      List.getElem?_append_left (by rw [hall j]; exact hr)]

/-- The spec's per-pixel luma formula Y = 0.299R + 0.587G + 0.114B, clamped
to [0, 255] and truncated. -/
def ySpec (r g b : Nat) : Nat :=
  f32AsU8 (0.299 * (r : Rat) + 0.587 * (g : Rat) + 0.114 * (b : Rat))

/-- The spec's per-pixel chroma-U formula U = −0.147R − 0.289G + 0.436B
+ 128, clamped to [0, 255] and truncated. -/
def uSpec (r g b : Nat) : Nat :=
  f32AsU8 ((-0.147) * (r : Rat) - 0.289 * (g : Rat) + 0.436 * (b : Rat) + 128)

/-- The spec's per-pixel chroma-V formula V = 0.615R − 0.515G − 0.100B
+ 128, clamped to [0, 255] and truncated. -/
def vSpec (r g b : Nat) : Nat :=
  f32AsU8 (0.615 * (r : Rat) - 0.515 * (g : Rat) - 0.100 * (b : Rat) + 128)

/-- The spec's description of the `[Y0, Uavg, Y1, Vavg]` quad emitted for
row `y` and horizontal pair index `i`: the pair is pixels `2i` and `2i+1`,
a single trailing pixel at odd width is duplicated as its own pair, each
pixel is converted independently, and the two pixels' U and V are
averaged. -/
def pairBytes (img : Frame) (y i : Nat) : List Nat :=
  let x := 2 * i
  let p1 := img.pix x y
  let p2 := if x + 1 < img.width then img.pix (x + 1) y else p1
  [ySpec p1.1 p1.2.1 p1.2.2,
   (uSpec p1.1 p1.2.1 p1.2.2 + uSpec p2.1 p2.2.1 p2.2.2) / 2,
   ySpec p2.1 p2.2.1 p2.2.2,
   (vSpec p1.1 p1.2.1 p1.2.2 + vSpec p2.1 p2.2.1 p2.2.2) / 2]

/-- Claim C5: the 4:2:2 encoder processes each row in horizontal pairs
(trailing pixel duplicated at odd width), converts each pixel with the
spec's Y/U/V formulas (clamped and truncated), averages the pair's U and V,
emits `[Y0, Uavg, Y1, Vavg]` per pair, and the output length is
height · ceil(width/2) · 4 bytes. -/
theorem rgb_to_yuyv_pair_layout (img : Frame) :
    (rgb_to_yuyv img).length = img.height * ((img.width + 1) / 2) * 4 ∧
    (∀ r g b, rgb_to_yuv r g b = (ySpec r g b, uSpec r g b, vSpec r g b)) ∧
    (∀ y i, y < img.height → i < (img.width + 1) / 2 →
      ((rgb_to_yuyv img).drop ((y * ((img.width + 1) / 2) + i) * 4)).take 4 =
        pairBytes img y i) := by
  refine ⟨?_, fun r g b => rfl, fun y i hy hi => ?_⟩
  · exact double_flatMap_length img.height ((img.width + 1) / 2) 4
      (fun a b => pairBytes img a b) (fun _ _ => rfl)
  · exact double_flatMap_layout img.height ((img.width + 1) / 2) 4
      (fun a b => pairBytes img a b) (fun _ _ => rfl) y i hy hi

/-- A concrete 3×2 frame with an odd width, exercising the duplicated
trailing pixel. -/
def oddImg : Frame := ⟨3, 2, fun x y => (40 * x + y, 10, 200)⟩

/-- Witness for C5: the second quad of the first row of a concrete
odd-width frame. -/
theorem rgb_to_yuyv_pair_layout_witness :
    ((rgb_to_yuyv oddImg).drop ((0 * ((oddImg.width + 1) / 2) + 1) * 4)).take 4 =
      pairBytes oddImg 0 1 :=
  (rgb_to_yuyv_pair_layout oddImg).2.2 0 1 (by decide) (by decide)

/-- Claim C6 (modelled from the spec, no such conversion exists under
`src/`): RGB→packed-BGRA emits `[B, G, R, 255]` for every pixel, its
output length is width·height·4, and the two concrete conversions of §8
hold. -/
theorem rgb_to_bgra_layout (img : Frame) :
    (rgb_to_bgra img).length = img.width * img.height * 4 ∧
    (∀ y x, y < img.height → x < img.width →
      ((rgb_to_bgra img).drop ((y * img.width + x) * 4)).take 4 =
        [(img.pix x y).2.2, (img.pix x y).2.1, (img.pix x y).1, 255]) ∧
    bgra_pixel (255, 0, 0) = [0, 0, 255, 255] ∧
    bgra_pixel (0, 0, 0) = [0, 0, 0, 255] := by
  refine ⟨?_, fun y x hy hx => ?_, rfl, rfl⟩
  · rw [Nat.mul_comm img.width img.height]
    exact double_flatMap_length img.height img.width 4
      (fun a b => bgra_pixel (img.pix b a)) (fun _ _ => rfl)
  · exact double_flatMap_layout img.height img.width 4
      (fun a b => bgra_pixel (img.pix b a)) (fun _ _ => rfl) y x hy hx

/-- Witness for C6: the pixel at (1, 0) of a concrete frame. -/
theorem rgb_to_bgra_layout_witness :
    ((rgb_to_bgra oddImg).drop ((0 * oddImg.width + 1) * 4)).take 4 =
      [(oddImg.pix 1 0).2.2, (oddImg.pix 1 0).2.1, (oddImg.pix 1 0).1, 255] :=
  (rgb_to_bgra_layout oddImg).2.1 0 1 (by decide) (by decide)

/-- Every channel of a byte-bounded pixel is at most 255. -/
theorem chan_le_255 (c : Nat) (p : Nat × Nat × Nat)
    (hp : p.1 ≤ 255 ∧ p.2.1 ≤ 255 ∧ p.2.2 ≤ 255) : chan c p ≤ 255 := by
  unfold chan
  split_ifs
  · exact hp.1
  · exact hp.2.1
  · exact hp.2.2

/-- Claim C7: when the frame's dimensions already equal the configured
target resolution, `preprocess` performs no resize and returns a tensor of
shape [1, 3, height, width] whose NCHW element at (0, c, y, x) — flat index
c·(height·width) + y·width + x — is the pixel's channel byte divided by
255, a value in [0, 1]. -/
theorem preprocess_identity_resolution (resize : Frame → Nat → Nat → Frame)
    (tw th : Nat) (f : Frame) (hw : f.width = tw) (hh : f.height = th)
    (hb : ∀ x y, (f.pix x y).1 ≤ 255 ∧ (f.pix x y).2.1 ≤ 255 ∧ (f.pix x y).2.2 ≤ 255) :
    (preprocess resize tw th f).shape = (1, 3, th, tw) ∧
    (∀ c y x, c < 3 → y < th → x < tw →
      (preprocess resize tw th f).data.getD (c * (th * tw) + (y * tw + x)) 0 =
        (chan c (f.pix x y) : Rat) / 255 ∧
      0 ≤ (preprocess resize tw th f).data.getD (c * (th * tw) + (y * tw + x)) 0 ∧
      (preprocess resize tw th f).data.getD (c * (th * tw) + (y * tw + x)) 0 ≤ 1) := by
  subst hw
  subst hh
  have hshape : (preprocess resize f.width f.height f).shape =
      (1, 3, f.height, f.width) := by
    unfold preprocess
    dsimp only
    rw [if_pos rfl]
  have hdata : (preprocess resize f.width f.height f).data =
      (List.range 3).flatMap fun c =>
        (List.range f.height).flatMap fun y =>
          (List.range f.width).map fun x => (chan c (f.pix x y) : Rat) / 255 := by
    unfold preprocess
    dsimp only
    rw [if_pos rfl]
  refine ⟨hshape, fun c y x hc hy hx => ?_⟩
  have hall1 : ∀ a, ((List.range f.height).flatMap fun y =>
      (List.range f.width).map fun x => (chan a (f.pix x y) : Rat) / 255).length =
      f.height * f.width := by
    intro a
    have := length_flatMap_const (List.range f.height)
      (fun y => (List.range f.width).map fun x => (chan a (f.pix x y) : Rat) / 255)
      f.width (fun b _ => by simp)
    simpa using this
  have hall2 : ∀ a, ((List.range f.width).map fun x =>
      (chan c (f.pix x a) : Rat) / 255).length = f.width := by
    intro a; simp
  have hr1 : y * f.width + x < f.height * f.width := by
    have h1 : y * f.width + x < (y + 1) * f.width := by
      have : (y + 1) * f.width = y * f.width + f.width := by ring
      omega
    have h2 : (y + 1) * f.width ≤ f.height * f.width :=
      Nat.mul_le_mul_right f.width hy
    omega
  have hval : (preprocess resize f.width f.height f).data.getD
      (c * (f.height * f.width) + (y * f.width + x)) 0 =
      (chan c (f.pix x y) : Rat) / 255 := by
    rw [hdata, range_flatMap_getD _ (f.height * f.width) 3 c (y * f.width + x) 0
      hall1 hc hr1]
    rw [range_flatMap_getD _ f.width f.height y x 0 hall2 hy hx]
    rw [List.getD_eq_getElem _ _ (by simpa using hx)]
    simp
  refine ⟨hval, ?_, ?_⟩
  · rw [hval]
    positivity
  · rw [hval]
    rw [div_le_one (by norm_num : (0 : Rat) < 255)]
    exact_mod_cast chan_le_255 c (f.pix x y) (hb x y)

/-- A concrete 2×2 frame whose dimensions equal the target resolution. -/
def smallImg : Frame := ⟨2, 2, fun _ _ => (10, 20, 30)⟩

/-- Witness for C7: the green-channel element at pixel (1, 1) of a
concrete frame preprocessed at its own resolution. -/
theorem preprocess_identity_resolution_witness :
    (preprocess idResize 2 2 smallImg).data.getD (1 * (2 * 2) + (1 * 2 + 1)) 0 =
      (chan 1 (smallImg.pix 1 1) : Rat) / 255 :=
  ((preprocess_identity_resolution idResize 2 2 smallImg rfl rfl
    (fun _ _ => by simp [smallImg])).2
    1 1 1 (by decide) (by decide) (by decide)).1

/-- Pointwise-equal chunk functions give equal flatMaps. -/
theorem flatMap_congr {α β : Type} {l : List α} {f g : α → List β}
    (h : ∀ a ∈ l, f a = g a) : l.flatMap f = l.flatMap g := by
  induction l with
  | nil => rfl
  | cons a t ih =>
    rw [List.flatMap_cons, List.flatMap_cons, h a (List.mem_cons_self a t),
        ih (fun b hb => h b (List.mem_cons_of_mem a hb))]

/-- The fixed-point conversion of a pure white pixel: the coefficient rows
sum to exactly 1, 0 and 0, so Y = 255 and U = V = 128 exactly in the
rational model. -/
theorem rgb_to_yuv_white : rgb_to_yuv 255 255 255 = (255, 128, 128) := by
  unfold rgb_to_yuv f32AsU8
  norm_num [min_def, max_def]
  decide

/-- A uniform white frame. -/
def whiteFrame (w h : Nat) : Frame := ⟨w, h, fun _ _ => (255, 255, 255)⟩

/-- Claim C8: for a uniform white image of even width, every emitted quad
of the 4:2:2 encoder is `[255, 128, 255, 128]` — luma 255 and both
averaged chroma bytes 128 (exact in the rational model of `f32`). -/
theorem yuyv_white_uniform (w h : Nat) (he : w % 2 = 0) :
    rgb_to_yuyv (whiteFrame w h) =
      (List.replicate (h * (w / 2)) ([255, 128, 255, 128] : List Nat)).flatten := by
  have hquad : ∀ y i : Nat,
      (let x := 2 * i
       let p1 := (whiteFrame w h).pix x y
       let p2 := if x + 1 < (whiteFrame w h).width then (whiteFrame w h).pix (x + 1) y
         else p1
       let yuv1 := rgb_to_yuv p1.1 p1.2.1 p1.2.2
       let yuv2 := rgb_to_yuv p2.1 p2.2.1 p2.2.2
       let u := (yuv1.2.1 + yuv2.2.1) / 2
       let v := (yuv1.2.2 + yuv2.2.2) / 2
       ([yuv1.1, u, yuv2.1, v] : List Nat)) = [255, 128, 255, 128] := by
    intro y i
    dsimp only [whiteFrame]
    rw [ite_self, rgb_to_yuv_white]
    rfl
  unfold rgb_to_yuyv
  rw [flatMap_congr (fun y _ => flatMap_congr (fun i _ => hquad y i))]
  rw [flatMap_congr (fun y _ =>
    flatMap_const (List.range (((whiteFrame w h).width + 1) / 2))
      ([255, 128, 255, 128] : List Nat))]
  rw [flatMap_const, List.length_range, List.length_range]
  rw [flatten_replicate_flatten]
  have hh : (whiteFrame w h).height = h := rfl
  have hcw : ((whiteFrame w h).width + 1) / 2 = w / 2 := by
    show (w + 1) / 2 = w / 2
    omega
  rw [hh, hcw]

/-- Witness for C8 at a concrete 2×1 white frame. -/
theorem yuyv_white_uniform_witness :
    rgb_to_yuyv (whiteFrame 2 1) =
      (List.replicate (1 * (2 / 2)) ([255, 128, 255, 128] : List Nat)).flatten :=
  yuyv_white_uniform 2 1 (by decide)

/-- An output entry that extracts as an f32 tensor of rank exactly 4 whose
shape product matches its data length. -/
def WellFormed4 (v : OrtValue) : Prop :=
  ∃ sh dt, v = OrtValue.f32 sh dt ∧ sh.length = 4 ∧
    sh.getD 0 0 * sh.getD 1 0 * sh.getD 2 0 * sh.getD 3 0 = dt.length

/-- Reading `outputs[1]` out of range panics. -/
theorem extractPha_oob (outputs : List OrtValue) (h : outputs.length ≤ 1) :
    extractPha outputs = PhaExtract.panic := by
  unfold extractPha
  rw [dif_neg (by omega)]

/-- Reading `outputs[i]` out of range panics. -/
theorem extractHidden_oob (outputs : List OrtValue) (i : Nat)
    (h : outputs.length ≤ i) : extractHidden outputs i = RExtract.panic := by
  unfold extractHidden
  rw [dif_neg (by omega)]

/-- Matte extraction succeeds on a well-formed `outputs[1]`. -/
theorem extractPha_wf (outputs : List OrtValue) (h : 1 < outputs.length)
    (hw : WellFormed4 (outputs.get ⟨1, h⟩)) :
    ∃ mh mw dt, extractPha outputs = PhaExtract.ok mh mw dt := by
  obtain ⟨sh, dt, hv, hlen, _⟩ := hw
  unfold extractPha
  rw [dif_pos h, hv]
  dsimp only
  rw [if_pos (by omega)]
  exact ⟨_, _, _, rfl⟩

/-- Hidden-state extraction succeeds on a well-formed `outputs[i]`. -/
theorem extractHidden_wf (outputs : List OrtValue) (i : Nat)
    (h : i < outputs.length) (hw : WellFormed4 (outputs.get ⟨i, h⟩)) :
    ∃ t, extractHidden outputs i = RExtract.ok t := by
  obtain ⟨sh, dt, hv, hlen, hprod⟩ := hw
  unfold extractHidden
  rw [dif_pos h, hv]
  dsimp only
  rw [if_pos (by omega), if_pos hprod]
  exact ⟨_, rfl⟩

/-- A matte tensor of rank below 4 panics the shape reads
`pha_shape[2]` / `pha_shape[3]`. -/
theorem extractPha_low_rank (outputs : List OrtValue) (h : 1 < outputs.length)
    (sh : List Nat) (dt : List Rat)
    (hv : outputs.getD 1 OrtValue.other = OrtValue.f32 sh dt)
    (hr : sh.length < 4) : extractPha outputs = PhaExtract.panic := by
  unfold extractPha
  rw [dif_pos h, List.get_eq_getElem, ← List.getD_eq_getElem _ OrtValue.other h, hv]
  dsimp only
  rw [if_neg (by omega)]

/-- When the four hidden states are present after the init-guard, `segment`
is exactly `segmentCore` on them. -/
theorem segment_unfold_some (resize : Frame → Nat → Nat → Frame)
    (resizeG : GrayFrame → Nat → Nat → GrayFrame) (run : InferEngine)
    (s : RVMState) (frame : Frame) (a1 a2 a3 a4 : Tensor4)
    (h1 : (ensure_init s).r1 = some a1) (h2 : (ensure_init s).r2 = some a2)
    (h3 : (ensure_init s).r3 = some a3) (h4 : (ensure_init s).r4 = some a4) :
    RobustVideoMatting.segment resize resizeG run s frame =
      segmentCore run resizeG (preprocess resize rvmWidth rvmHeight frame)
        a1 a2 a3 a4 frame.width frame.height (ensure_init s) := by
  unfold RobustVideoMatting.segment
  dsimp only
  rw [h1, h2, h3, h4]

/-- Claim C3 counterexample: the claim requires `segment` to fail with a
ShapeMismatch error, without panicking, when a returned tensor is not
4-dimensional.  With a session returning six entries whose matte entry
(`outputs[1]`) is a rank-2 f32 tensor, the code instead panics: it indexes
`pha_shape[2]` / `pha_shape[3]` out of bounds.  (There is also no
ShapeMismatch error anywhere in the code; all returned failures are
`anyhow` errors.) -/
theorem segment_low_rank_matte_panics :
    (RobustVideoMatting.segment idResize idResizeG lowRankEngine cexState cexFrame).1
      = SegOut.panic := by
  decide

/-- Claim C3 as amended: over engine states respecting the all-or-none
hidden-state invariant (all reachable states do), (a) `segment` fails with
the inference-failure error and without panicking whenever the external
engine itself errors; (b) when the engine instead returns a tensor set
missing any of the expected six entries — the present entries being
otherwise well-formed — the call panics on an out-of-bounds index rather
than returning an error; (c) when the returned matte tensor has fewer than
4 dimensions the call panics rather than returning a ShapeMismatch. -/
theorem segment_failure_modes :
    (∀ (resize : Frame → Nat → Nat → Frame)
        (resizeG : GrayFrame → Nat → Nat → GrayFrame) (run : InferEngine)
        (s : RVMState) (frame : Frame), allOrNone s →
      (∀ a b c d e, run a b c d e = none) →
      (RobustVideoMatting.segment resize resizeG run s frame).1 =
        SegOut.err "Failed to run inference") ∧
    (∀ (resize : Frame → Nat → Nat → Frame)
        (resizeG : GrayFrame → Nat → Nat → GrayFrame) (run : InferEngine)
        (s : RVMState) (frame : Frame) (outs : List OrtValue), allOrNone s →
      (∀ a b c d e, run a b c d e = some outs) →
      outs.length < 6 → (∀ v ∈ outs, WellFormed4 v) →
      (RobustVideoMatting.segment resize resizeG run s frame).1 = SegOut.panic) ∧
    (∀ (resize : Frame → Nat → Nat → Frame)
        (resizeG : GrayFrame → Nat → Nat → GrayFrame) (run : InferEngine)
        (s : RVMState) (frame : Frame) (outs : List OrtValue)
        (sh : List Nat) (dt : List Rat), allOrNone s →
      (∀ a b c d e, run a b c d e = some outs) →
      1 < outs.length → outs.getD 1 OrtValue.other = OrtValue.f32 sh dt →
      sh.length < 4 →
      (RobustVideoMatting.segment resize resizeG run s frame).1 = SegOut.panic) := by
  refine ⟨?_, ?_, ?_⟩
  · intro resize resizeG run s frame hA hrun
    obtain ⟨e1, e2, e3, e4⟩ := ensure_init_all_present s hA
    obtain ⟨a1, h1⟩ := Option.ne_none_iff_exists'.mp e1
    obtain ⟨a2, h2⟩ := Option.ne_none_iff_exists'.mp e2
    obtain ⟨a3, h3⟩ := Option.ne_none_iff_exists'.mp e3
    obtain ⟨a4, h4⟩ := Option.ne_none_iff_exists'.mp e4
    rw [segment_unfold_some resize resizeG run s frame a1 a2 a3 a4 h1 h2 h3 h4]
    unfold segmentCore
    rw [hrun]
  · intro resize resizeG run s frame outs hA hrun hlen hwf
    obtain ⟨e1, e2, e3, e4⟩ := ensure_init_all_present s hA
    obtain ⟨a1, h1⟩ := Option.ne_none_iff_exists'.mp e1
    obtain ⟨a2, h2⟩ := Option.ne_none_iff_exists'.mp e2
    obtain ⟨a3, h3⟩ := Option.ne_none_iff_exists'.mp e3
    obtain ⟨a4, h4⟩ := Option.ne_none_iff_exists'.mp e4
    rw [segment_unfold_some resize resizeG run s frame a1 a2 a3 a4 h1 h2 h3 h4]
    unfold segmentCore
    rw [hrun]
    dsimp only
    rcases Nat.lt_or_ge outs.length 2 with hl2 | hg2
    · rw [extractPha_oob outs (by omega)]
    · obtain ⟨mh, mw, dt, hok⟩ :=
        extractPha_wf outs (by omega) (hwf _ (outs.get_mem 1 (by omega)))
      rw [hok]
      dsimp only
      rcases Nat.lt_or_ge outs.length 3 with hl3 | hg3
      · rw [extractHidden_oob outs 2 (by omega)]
      · obtain ⟨t1, hok2⟩ :=
          extractHidden_wf outs 2 (by omega) (hwf _ (outs.get_mem 2 (by omega)))
        rw [hok2]
        dsimp only
        rcases Nat.lt_or_ge outs.length 4 with hl4 | hg4
        · rw [extractHidden_oob outs 3 (by omega)]
        · obtain ⟨t2, hok3⟩ :=
            extractHidden_wf outs 3 (by omega) (hwf _ (outs.get_mem 3 (by omega)))
          rw [hok3]
          dsimp only
          rcases Nat.lt_or_ge outs.length 5 with hl5 | hg5
          · rw [extractHidden_oob outs 4 (by omega)]
          · obtain ⟨t3, hok4⟩ :=
              extractHidden_wf outs 4 (by omega) (hwf _ (outs.get_mem 4 (by omega)))
            rw [hok4]
            dsimp only
            rw [extractHidden_oob outs 5 (by omega)]
  · intro resize resizeG run s frame outs sh dt hA hrun hlen hv hr
    obtain ⟨e1, e2, e3, e4⟩ := ensure_init_all_present s hA
    obtain ⟨a1, h1⟩ := Option.ne_none_iff_exists'.mp e1
    obtain ⟨a2, h2⟩ := Option.ne_none_iff_exists'.mp e2
    obtain ⟨a3, h3⟩ := Option.ne_none_iff_exists'.mp e3
    obtain ⟨a4, h4⟩ := Option.ne_none_iff_exists'.mp e4
    rw [segment_unfold_some resize resizeG run s frame a1 a2 a3 a4 h1 h2 h3 h4]
    unfold segmentCore
    rw [hrun]
    dsimp only
    rw [extractPha_low_rank outs hlen sh dt hv hr]

/-- Witness for the amended C3 at concrete sessions: an erroring run, a
run returning only five (well-formed) outputs, and a run returning a
rank-2 matte tensor. -/
theorem segment_failure_modes_witness :
    (RobustVideoMatting.segment idResize idResizeG errEngine cexState cexFrame).1 =
      SegOut.err "Failed to run inference" ∧
    (RobustVideoMatting.segment idResize idResizeG fiveOutputEngine cexState
      cexFrame).1 = SegOut.panic ∧
    (RobustVideoMatting.segment idResize idResizeG lowRankEngine cexState
      cexFrame).1 = SegOut.panic := by
  refine ⟨?_, ?_, ?_⟩
  · exact segment_failure_modes.1 idResize idResizeG errEngine cexState cexFrame
      (by decide) (fun _ _ _ _ _ => rfl)
  · refine segment_failure_modes.2.1 idResize idResizeG fiveOutputEngine cexState
      cexFrame _ (by decide) (fun _ _ _ _ _ => rfl) (by decide) ?_
    intro v hv
    have hveq : v = OrtValue.f32 [1, 1, 1, 1] [0] := by
      simpa using hv
    subst hveq
    exact ⟨[1, 1, 1, 1], [0], rfl, rfl, rfl⟩
  · exact segment_failure_modes.2.2 idResize idResizeG lowRankEngine cexState
      cexFrame _ [1, 1] [0, 0] (by decide) (fun _ _ _ _ _ => rfl) (by decide)
      rfl (by decide)
